import Mathlib

/-!
# Verification of the conntracct event pipeline

A shallow embedding of the conntracct repository's core:
* `pkg/bpf/acct_consumer.go` — consumer registry (`NewConsumer`,
  `RegisterConsumer`, `RemoveConsumer`, `GetConsumer`) and kind filters,
* `pkg/bpf/errors.go` — error values,
* `internal/pipeline/pipeline.go` and its companion file — pipeline
  lifecycle (`Init`, `Start`, `Stop`), sink registration, the two
  channel-draining workers and their statistics updates,
* `internal/sinks/influxdb/influxdb.go` — the InfluxDB sink's batching
  logic (`Init` watermark defaulting and `Push`).

Go `uint64` counters are modelled as `Nat` reduced modulo `2 ^ 64` at
every write, matching `atomic.AddUint64` wrap-around.  Fallible Go
functions returning `error` become `Except`/`Option` values.  Parts of
the repository that the claims depend on but whose source is not in the
provided tree (the bpf cooldown filter, `Probe.Stop`, `EventLength`)
are modelled from the specification and marked as such in their doc
comments.
-/

namespace Conntracct

/-- Events are of two kinds: conntrack flow updates and flow destroys. -/
inductive EventKind where
  | update
  | destroy
deriving DecidableEq, Repr

/-- The decoded accounting event record (`bpf.Event`).  Only the fields
the verified claims inspect are carried; all are kernel-supplied
numbers. -/
structure Event where
  timestamp : Nat
  connectionID : Nat
  netNS : Nat
  kind : EventKind
deriving DecidableEq, Repr

/-- Modelled from the spec: `EventLength` is the published byte size of
a decoded kernel event record, fixed at 92 bytes (offset table in §6 of
the spec).  The constant is declared in the bpf package, whose file is
not part of the provided sources; the pipeline workers add it to the
byte counters. -/
def EventLength : Nat := 92

/-- Error values of the bpf package (`pkg/bpf/errors.go`). -/
inductive BpfError where
  | errProbeStarted
  | errProbeNotStarted
  | errDupConsumer
  | errNoConsumer
  | errConsumerNil
deriving DecidableEq, Repr

/-! ## Consumer registry (`pkg/bpf/acct_consumer.go`) -/

/-- `ConsumerUpdate`: bit flag for update events (value 1). -/
def ConsumerUpdate : Nat := 1

/-- `ConsumerDestroy`: bit flag for destroy events (value 2). -/
def ConsumerDestroy : Nat := 2

/-- `ConsumerAll = ConsumerUpdate | ConsumerDestroy`. -/
def ConsumerAll : Nat := ConsumerUpdate ||| ConsumerDestroy

/-- A `Consumer` of accounting events: a name, an output channel
(identified here by a numeric id plus its capacity), a lost-sample
counter and a mode bitfield.  `mode` is a Go `uint8`
(`ConsumerMode`). -/
structure Consumer where
  name : String
  events : Nat
  lost : Nat
  mode : Nat
deriving DecidableEq, Repr

/-- `NewConsumer` (acct_consumer.go): a mode of 0 is replaced by
`ConsumerAll` before the consumer is built. -/
def NewConsumer (name : String) (events : Nat) (mode : Nat) : Consumer :=
  let m := if mode = 0 then ConsumerAll else mode
  { name := name, events := events, lost := 0, mode := m }

/-- `Consumer.WantUpdate`: `(ac.mode & ConsumerUpdate) > 0`. -/
def Consumer.wantUpdate (ac : Consumer) : Bool :=
  (ac.mode &&& ConsumerUpdate) > 0

/-- `Consumer.WantDestroy`: `(ac.mode & ConsumerDestroy) > 0`. -/
def Consumer.wantDestroy (ac : Consumer) : Bool :=
  (ac.mode &&& ConsumerDestroy) > 0

/-- `Probe.RegisterConsumer`: nil consumer → `errConsumerNil`; an
existing consumer with the same name → `errDupConsumer` (registry left
as it was); otherwise the consumer is appended to the list.  The Go
method mutates `ap.consumers` and returns an error value, modelled as
a pair (registry after the call, returned error).  The Go nil pointer
argument is modelled by `Option Consumer`. -/
def RegisterConsumer (cs : List Consumer) (ac : Option Consumer) :
    List Consumer × Option BpfError :=
  match ac with
  | none => (cs, some .errConsumerNil)
  | some c =>
    if cs.any (fun x => x.name = c.name) then
      (cs, some .errDupConsumer)
    else
      (cs ++ [c], none)

/-- The unordered swap-remove of `Probe.RemoveConsumer`: the element at
index `i` is overwritten with the last element, the (now duplicate)
last slot is cleared — in Go by storing `nil` so the reference is
dropped, here by shrinking the list — and the slice shrinks by one. -/
def swapRemove (cs : List Consumer) (i : Nat) : List Consumer :=
  match cs.getLast? with
  | none => []
  | some lastC => (cs.set i lastC).dropLast

/-- `Probe.RemoveConsumer`: nil consumer → `errConsumerNil`; no
registered consumer with the same name → `errNoConsumer` (registry
unchanged); otherwise the first match is removed by swap-remove.
Modelled, like `RegisterConsumer`, as (registry after the call,
returned error). -/
def RemoveConsumer (cs : List Consumer) (ac : Option Consumer) :
    List Consumer × Option BpfError :=
  match ac with
  | none => (cs, some .errConsumerNil)
  | some c =>
    match cs.findIdx? (fun x => x.name = c.name) with
    | none => (cs, some .errNoConsumer)
    | some i => (swapRemove cs i, none)

/-- `Probe.GetConsumer`: linear lookup by name, `nil` (`none`) when the
name is not registered. -/
def GetConsumer (cs : List Consumer) (name : String) : Option Consumer :=
  cs.find? (fun c => c.name = name)

/-! ## Probe (partly modelled from the spec)

The bpf `Probe` type and its `Start`/`Stop` methods are declared in the
bpf package, whose files are not in the provided source tree (only
`acct_consumer.go` and `errors.go` are).  The lifecycle behaviour is
modelled from the spec (§4.5). -/

/-- Modelled from the spec: the bpf `Probe` owns the consumer list and
a running flag (§3, §4.5).  `startResult` stands for the outcome the
probe's `Start` would have (attaching kernel programs is external):
`none` for success, `some e` for failure. -/
structure Probe where
  consumers : List Consumer
  running : Bool
  startResult : Option BpfError
deriving DecidableEq, Repr

/-- Modelled from the spec: `Probe.Stop` "fails with `NotRunning`"
when the probe is not running, otherwise stops it (§4.5). -/
def Probe.stop (ap : Probe) : Except BpfError Probe :=
  if ap.running then .ok { ap with running := false }
  else .error .errProbeNotStarted

/-! ## Sinks and the pipeline (`internal/pipeline`) -/

/-- A registered `Sink` as the pipeline observes it: its name and the
results of its `IsInit`/`WantUpdate`/`WantDestroy` capability calls. -/
structure Sink where
  name : String
  isInit : Bool
  wantUpdate : Bool
  wantDestroy : Bool
deriving DecidableEq, Repr

/-- Errors of the pipeline package.  `errSinkNotInit` and
`errAcctNotInitialized` are referenced by `pipeline.go` and the
lifecycle file; their declaration file is not in the provided tree, so
the values are modelled from the spec (`SinkNotInitialized`, "Start
fails when Init never ran").  `wrapProbeStart e` is
`errors.Wrap(e, "starting Probe")`. -/
inductive PipelineError where
  | errSinkNotInit
  | errAcctNotInitialized
  | wrapProbeStart (e : BpfError)
deriving DecidableEq, Repr

/-- `Pipeline.RegisterSink` (pipeline.go): an uninitialized sink is
rejected with `errSinkNotInit` and the sink list is left unchanged;
otherwise the sink is appended under the exclusive lock.  Modelled as
(sink list after the call, returned error).  (The sysctl warning
emitted for destroy-consuming sinks is a log line with no effect on
the state.) -/
def RegisterSink (ss : List Sink) (s : Sink) : List Sink × Option PipelineError :=
  if !s.isInit then (ss, some .errSinkNotInit)
  else (ss ++ [s], none)

/-- `Stats` (pipeline.go): the pipeline's counter block.  Every field
is a Go `uint64`; workers update them with wrap-around arithmetic. -/
structure Stats where
  eventsTotal : Nat
  acctBytesTotal : Nat
  eventsUpdate : Nat
  acctBytesUpdate : Nat
  eventsDestroy : Nat
  acctBytesDestroy : Nat
  acctUpdateQueueLen : Nat
  acctDestroyQueueLen : Nat
deriving DecidableEq, Repr

/-- The zero-valued `Stats` block a fresh `Pipeline` starts with. -/
def Stats.zero : Stats :=
  { eventsTotal := 0, acctBytesTotal := 0, eventsUpdate := 0,
    acctBytesUpdate := 0, eventsDestroy := 0, acctBytesDestroy := 0,
    acctUpdateQueueLen := 0, acctDestroyQueueLen := 0 }

/-- `atomic.AddUint64`: add with `uint64` wrap-around. -/
def addU64 (x d : Nat) : Nat := (x + d) % 2 ^ 64

/-- The statistics block of `acctUpdateWorker` for one dequeued update
event: increment the total, byte-total, update and update-byte
counters, and store the channel length gauge. -/
def acctUpdateWorkerStats (st : Stats) (queueLen : Nat) : Stats :=
  { st with
    eventsTotal := addU64 st.eventsTotal 1
    acctBytesTotal := addU64 st.acctBytesTotal EventLength
    eventsUpdate := addU64 st.eventsUpdate 1
    acctBytesUpdate := addU64 st.acctBytesUpdate EventLength
    acctUpdateQueueLen := queueLen % 2 ^ 64 }

/-- The statistics block of `acctDestroyWorker` for one dequeued
destroy event. -/
def acctDestroyWorkerStats (st : Stats) (queueLen : Nat) : Stats :=
  { st with
    eventsTotal := addU64 st.eventsTotal 1
    acctBytesTotal := addU64 st.acctBytesTotal EventLength
    eventsDestroy := addU64 st.eventsDestroy 1
    acctBytesDestroy := addU64 st.acctBytesDestroy EventLength
    acctDestroyQueueLen := queueLen % 2 ^ 64 }

/-- One worker step on the stats block, dispatched on which channel the
event was dequeued from (update events are handled by
`acctUpdateWorker`, destroy events by `acctDestroyWorker`). -/
def workerStats (st : Stats) (k : EventKind) (queueLen : Nat) : Stats :=
  match k with
  | .update => acctUpdateWorkerStats st queueLen
  | .destroy => acctDestroyWorkerStats st queueLen

/-- The stats block after a whole sequence of dequeued events (kind and
observed queue length for each) has been processed by the workers. -/
def processStats (evs : List (EventKind × Nat)) : Stats :=
  evs.foldl (fun st e => workerStats st e.1 e.2) Stats.zero

/-- The fanout loop of `acctUpdateWorker`: under the shared sink lock,
`Push(event)` is invoked on exactly the registered sinks whose
`WantUpdate()` is true, in list order.  The result lists the sinks
that receive the event. -/
def acctUpdateFanout (ss : List Sink) : List Sink :=
  ss.filter (fun s => s.wantUpdate)

/-- The fanout loop of `acctDestroyWorker`: `Push(event)` goes to
exactly the sinks whose `WantDestroy()` is true. -/
def acctDestroyFanout (ss : List Sink) : List Sink :=
  ss.filter (fun s => s.wantDestroy)

/-- The pipeline state the lifecycle claims inspect: the probe
reference (nil until `initAcct` succeeds), the two `sync.Once` gates,
and instrumentation for what `startAcct` did: how many worker
goroutines were spawned and how many times `acctProbe.Start()` was
attempted. -/
structure PipelineState where
  acctProbe : Option Probe
  initDone : Bool
  startDone : Bool
  workersSpawned : Nat
  probeStartAttempts : Nat
deriving DecidableEq, Repr

/-- `pipeline.New()`: zero-valued pipeline, both gates unused, no
probe. -/
def PipelineState.new : PipelineState :=
  { acctProbe := none, initDone := false, startDone := false,
    workersSpawned := 0, probeStartAttempts := 0 }

/-- `startAcct`: spawn the two channel workers, then call the probe's
`Start`, wrapping its error.  `pr` is the probe stored by `initAcct`. -/
def startAcct (p : PipelineState) (pr : Probe) :
    PipelineState × Option PipelineError :=
  let p' := { p with
    workersSpawned := p.workersSpawned + 2
    probeStartAttempts := p.probeStartAttempts + 1 }
  match pr.startResult with
  | some e => (p', some (.wrapProbeStart e))
  | none => ({ p' with acctProbe := some { pr with running := true } }, none)

/-- `Pipeline.Start`: returns `errAcctNotInitialized` when the probe is
nil; otherwise runs `startAcct` through the `start` `sync.Once` gate —
when the gate has already been consumed the closure does not run and
the local `err` variable stays nil, so `Start` returns nil. -/
def pipelineStart (p : PipelineState) : PipelineState × Option PipelineError :=
  match p.acctProbe with
  | none => (p, some .errAcctNotInitialized)
  | some pr =>
    if p.startDone then (p, none)
    else startAcct { p with startDone := true } pr

/-- The observable outcome of `Pipeline.Stop`: a Go error value
(possibly nil), or a runtime fault (nil-pointer dereference). -/
inductive StopOutcome where
  | ok
  | goError (e : BpfError)
  | fault
deriving DecidableEq, Repr

/-- `Pipeline.Stop` (pipeline.go): `return p.acctProbe.Stop()`,
unconditionally.  When `acctProbe` is nil — `Init` never ran, or
failed before the probe was stored — the call dereferences a nil
`*Probe` and faults (the spec's §9 notes exactly this).  Otherwise the
probe's `Stop` result is returned. -/
def pipelineStop (p : PipelineState) : StopOutcome :=
  match p.acctProbe with
  | none => .fault
  | some pr =>
    match pr.stop with
    | .ok _ => .ok
    | .error e => .goError e

/-! ## Cooldown filter (modelled from the spec)

The per-flow cooldown table lives in the bpf package, outside the
provided sources; `initAcct` only configures it with
`CooldownMillis: 2000`.  The filter is modelled from the spec
(§4.3). -/

/-- Flow key: `(net_ns, connection_id)` (spec §4.3 and glossary). -/
structure FlowKey where
  netNS : Nat
  connID : Nat
deriving DecidableEq, Repr

/-- The cooldown table `flow_key → last_delivered_ts`, as an
association list. -/
def CooldownTable := List (FlowKey × Nat)

/-- Table lookup for a flow key. -/
def CooldownTable.lastOf (tbl : CooldownTable) (k : FlowKey) : Option Nat :=
  (List.find? (fun p => p.1 = k) tbl).map Prod.snd

/-- Replace (or insert) the entry for `k` with timestamp `t`. -/
def CooldownTable.setLast (tbl : CooldownTable) (k : FlowKey) (t : Nat) :
    CooldownTable :=
  (k, t) :: List.filter (fun p => p.1 ≠ k) tbl

/-- Remove the entry for `k`. -/
def CooldownTable.remove (tbl : CooldownTable) (k : FlowKey) : CooldownTable :=
  List.filter (fun p => p.1 ≠ k) tbl

/-- Whether the filter delivered or dropped the event. -/
inductive FilterOutcome where
  | delivered
  | dropped
deriving DecidableEq, Repr

/-- Modelled from the spec (§4.3): one cooldown-filter step.  On an
Update with key `K` at timestamp `T`: if `last[K]` exists and
`T − last[K] < cooldown`, drop; else deliver and set `last[K] = T`.
On a Destroy: always deliver and remove `last[K]`.  The default
`cooldown_ms` is 2000, the value `initAcct` passes as
`CooldownMillis`. -/
def cooldownStep (cooldown : Nat) (tbl : CooldownTable) (k : FlowKey)
    (kind : EventKind) (t : Nat) : FilterOutcome × CooldownTable :=
  match kind with
  | .destroy => (.delivered, tbl.remove k)
  | .update =>
    match tbl.lastOf k with
    | some last =>
      if t - last < cooldown then (.dropped, tbl)
      else (.delivered, tbl.setLast k t)
    | none => (.delivered, tbl.setLast k t)

/-- The `CooldownMillis` value `initAcct` configures the probe with. -/
def initAcctCooldownMillis : Nat := 2000

/-! ## InfluxDB sink batching (`internal/sinks/influxdb/influxdb.go`) -/

/-- `defaultBatchWatermark` (influxdb.go). -/
def defaultBatchWatermark : Nat := 128

/-- An InfluxDB data point.  `Push` builds one point per event from the
event's fields; the batching logic the claim is about treats points as
opaque values, so the point carries the event it was built from. -/
structure Point where
  event : Event
deriving DecidableEq, Repr

/-- The sink-local statistics `Push` records
(`SetBatchLength` / `IncrEventsPushed`). -/
structure AcctSinkStats where
  batchLength : Nat
  eventsPushed : Nat
deriving DecidableEq, Repr

/-- The InfluxDB sink state the batching claims inspect: the effective
configuration (after `Init`'s defaulting), the current batch, the
batches handed to the send channel (`sendChan`, bounded; its capacity
is recorded), and the stats block. -/
structure InfluxState where
  batchWatermark : Nat
  sendChanCap : Nat
  batch : List Point
  sent : List (List Point)
  stats : AcctSinkStats
  isInit : Bool
deriving DecidableEq, Repr

/-- The configuration fields of `sinks.AcctSinkConfig` that
`InfluxAcctSink.Init` reads for batching. -/
structure AcctSinkConfig where
  name : String
  batchWatermark : Nat
deriving DecidableEq, Repr

/-- `InfluxAcctSink.Init` (influxdb.go): an empty name is rejected;
a configured `BatchWatermark` of 0 is replaced by
`defaultBatchWatermark` (128); the send channel is created with
capacity 64; an initial empty batch is installed and the sink marked
initialized.  (UDP client construction and the worker goroutines are
external transport.) -/
def influxInit (sc : AcctSinkConfig) : Option InfluxState :=
  if sc.name = "" then none
  else
    let wm := if sc.batchWatermark = 0 then defaultBatchWatermark
              else sc.batchWatermark
    some { batchWatermark := wm, sendChanCap := 64, batch := [],
           sent := [], stats := { batchLength := 0, eventsPushed := 0 },
           isInit := true }

/-- `InfluxAcctSink.Push` (influxdb.go, the batching section under
`batchMu`): append the event's point to the batch, record the batch
length and the pushed-event count, and when the batch length has
reached the watermark hand the batch to the send channel and install a
fresh batch. -/
def influxPush (s : InfluxState) (e : Event) : InfluxState :=
  let pt : Point := { event := e }
  let batch' := s.batch ++ [pt]
  let batchLen := batch'.length
  let s' := { s with
    batch := batch'
    stats := { batchLength := batchLen
               eventsPushed := s.stats.eventsPushed + 1 } }
  if batchLen ≥ s'.batchWatermark then
    { s' with sent := s'.sent ++ [batch'], batch := [] }
  else s'

/-! ## The stat-conservation invariant (spec §8, property 3) -/

/-- The invariant of the pipeline's `Stats` block: the event total is
the (wrapping) sum of the update and destroy counts, and the byte
total is the event total times `EventLength`, modulo `2 ^ 64`. -/
def statsConserved (st : Stats) : Prop :=
  st.eventsTotal = (st.eventsUpdate + st.eventsDestroy) % 2 ^ 64 ∧
  st.acctBytesTotal = (st.eventsTotal * EventLength) % 2 ^ 64

instance (st : Stats) : Decidable (statsConserved st) := by
  unfold statsConserved; infer_instance

/-- One worker step (either worker, any observed queue length)
preserves `statsConserved`. -/
theorem workerStats_preserves (st : Stats) (k : EventKind) (q : Nat)
    (h : statsConserved st) : statsConserved (workerStats st k q) := by
  obtain ⟨h1, h2⟩ := h
  cases k with
  | update =>
    simp only [workerStats, acctUpdateWorkerStats, statsConserved, addU64]
    refine ⟨?_, ?_⟩
    · rw [h1, Nat.mod_add_mod, Nat.mod_add_mod]
      congr 1
      omega
    · rw [h2, Nat.mod_add_mod, Nat.mod_mul_mod]
      congr 1
      ring
  | destroy =>
    simp only [workerStats, acctDestroyWorkerStats, statsConserved, addU64]
    refine ⟨?_, ?_⟩
    · rw [h1, Nat.mod_add_mod, Nat.add_mod_mod, Nat.add_assoc]
    · rw [h2, Nat.mod_add_mod, Nat.mod_mul_mod]
      congr 1
      ring

/-- Folding the workers over any event sequence preserves the
invariant. -/
theorem foldl_workerStats_preserves (evs : List (EventKind × Nat))
    (st : Stats) (h : statsConserved st) :
    statsConserved (evs.foldl (fun s e => workerStats s e.1 e.2) st) := by
  induction evs generalizing st with
  | nil => exact h
  | cons e tl ih => exact ih _ (workerStats_preserves _ _ _ h)

/-! ## Claim theorems -/

/-- C1: the claim says `Pipeline.Stop` is safe in any state and
returns a `ProbeNotRunning`-class error when `Init` never ran.  The
code instead calls `p.acctProbe.Stop()` unconditionally: on a fresh
pipeline (`New()`, no `Init`) the probe pointer is nil and the call
faults with a nil-pointer dereference rather than returning an
error. -/
theorem C1_stop_faults_when_uninitialized :
    pipelineStop PipelineState.new = .fault := rfl

/-- C2: stat conservation.  Every worker step (`acctUpdateWorker` or
`acctDestroyWorker`, dispatched by event kind, any observed queue
length) preserves `events_total = events_update + events_destroy` and
`bytes_total = events_total × EventLength` (modulo `2 ^ 64`, the
`uint64` wrap of `atomic.AddUint64`), and after any finite sequence of
events processed from the zero stats block the invariant holds. -/
theorem C2_stat_conservation :
    (∀ (st : Stats) (k : EventKind) (q : Nat),
      statsConserved st → statsConserved (workerStats st k q)) ∧
    (∀ evs : List (EventKind × Nat), statsConserved (processStats evs)) :=
  ⟨fun st k q h => workerStats_preserves st k q h,
   fun evs => foldl_workerStats_preserves evs Stats.zero
    (by simp [statsConserved, Stats.zero])⟩

/-- Witness for C2 at concrete inputs: one update step on the zero
stats block, and the two-event sequence update-then-destroy. -/
theorem C2_stat_conservation_witness :
    statsConserved (workerStats Stats.zero .update 3) ∧
    statsConserved (processStats [(.update, 0), (.destroy, 5)]) :=
  ⟨C2_stat_conservation.1 Stats.zero .update 3 (by decide),
   C2_stat_conservation.2 [(.update, 0), (.destroy, 5)]⟩

/-- C3: fanout filtering.  A sink receives `Push(event)` from the
update worker iff it is registered and its `WantUpdate()` is true, and
from the destroy worker iff it is registered and its `WantDestroy()`
is true; sinks whose filter is false receive nothing. -/
theorem C3_fanout_filtering :
    ∀ (ss : List Sink) (s : Sink),
      (s ∈ acctUpdateFanout ss ↔ s ∈ ss ∧ s.wantUpdate = true) ∧
      (s ∈ acctDestroyFanout ss ↔ s ∈ ss ∧ s.wantDestroy = true) := by
  intro ss s
  constructor <;> simp [acctUpdateFanout, acctDestroyFanout, List.mem_filter]

/-- C5: `RegisterConsumer` error contract.  A nil consumer yields
`errConsumerNil`; a name collision yields `errDupConsumer` with the
registry (and hence the earlier consumer) unchanged; otherwise the
consumer is appended. -/
theorem C5_register_consumer_contract :
    ∀ (cs : List Consumer) (c : Consumer),
      RegisterConsumer cs none = (cs, some .errConsumerNil) ∧
      ((∃ x ∈ cs, x.name = c.name) →
        RegisterConsumer cs (some c) = (cs, some .errDupConsumer)) ∧
      ((∀ x ∈ cs, x.name ≠ c.name) →
        RegisterConsumer cs (some c) = (cs ++ [c], none)) := by
  intro cs c
  refine ⟨rfl, ?_, ?_⟩
  · rintro ⟨x, hx, hname⟩
    simp only [RegisterConsumer]
    rw [if_pos]
    exact List.any_eq_true.mpr ⟨x, hx, by simp [hname]⟩
  · intro h
    simp only [RegisterConsumer]
    rw [if_neg]
    simp only [List.any_eq_true, not_exists]
    rintro x ⟨hx, hn⟩
    exact h x hx (by simpa using hn)

/-- Witness for C5 at concrete consumers: registering a duplicate name
fails and leaves the registry as it was; registering a fresh name
appends. -/
theorem C5_register_consumer_contract_witness :
    RegisterConsumer [NewConsumer "AcctUpdate" 0 1] (some (NewConsumer "AcctUpdate" 1 2)) =
      ([NewConsumer "AcctUpdate" 0 1], some .errDupConsumer) ∧
    RegisterConsumer [NewConsumer "AcctUpdate" 0 1] (some (NewConsumer "AcctDestroy" 1 2)) =
      ([NewConsumer "AcctUpdate" 0 1, NewConsumer "AcctDestroy" 1 2], none) :=
  ⟨((C5_register_consumer_contract [NewConsumer "AcctUpdate" 0 1]
      (NewConsumer "AcctUpdate" 1 2)).2.1 (by decide)),
   ((C5_register_consumer_contract [NewConsumer "AcctUpdate" 0 1]
      (NewConsumer "AcctDestroy" 1 2)).2.2 (by decide))⟩

/-- C8: sink registration.  `RegisterSink` returns `errSinkNotInit`
and leaves the sink list unchanged when the sink's `IsInit()` is
false, and otherwise appends the sink to the list. -/
theorem C8_register_sink_contract :
    ∀ (ss : List Sink) (s : Sink),
      (s.isInit = false → RegisterSink ss s = (ss, some .errSinkNotInit)) ∧
      (s.isInit = true → RegisterSink ss s = (ss ++ [s], none)) := by
  intro ss s
  constructor <;> intro h <;> simp [RegisterSink, h]

/-- Witness for C8 at concrete sinks. -/
theorem C8_register_sink_contract_witness :
    RegisterSink [] { name := "influxdb", isInit := false,
                      wantUpdate := true, wantDestroy := true } =
      ([], some .errSinkNotInit) ∧
    RegisterSink [] { name := "stdout", isInit := true,
                      wantUpdate := true, wantDestroy := false } =
      ([{ name := "stdout", isInit := true,
          wantUpdate := true, wantDestroy := false }], none) :=
  ⟨(C8_register_sink_contract [] _).1 rfl,
   (C8_register_sink_contract [] _).2 rfl⟩

/-- C9: consumer-mode semantics of `NewConsumer`.  With mode 0 the
consumer wants both kinds; with a nonzero mode, `WantUpdate()` holds
iff bit 0 (the `ConsumerUpdate` bit) is set and `WantDestroy()` holds
iff bit 1 (the `ConsumerDestroy` bit) is set. -/
theorem C9_consumer_mode_zero_means_all :
    (∀ (name : String) (events : Nat),
      (NewConsumer name events 0).wantUpdate = true ∧
      (NewConsumer name events 0).wantDestroy = true) ∧
    (∀ (name : String) (events : Nat) (mode : Nat), mode ≠ 0 →
      ((NewConsumer name events mode).wantUpdate = true ↔
        mode.testBit 0 = true) ∧
      ((NewConsumer name events mode).wantDestroy = true ↔
        mode.testBit 1 = true)) := by
  constructor
  · intro name events
    refine ⟨?_, ?_⟩ <;>
      simp [NewConsumer, Consumer.wantUpdate, Consumer.wantDestroy,
        ConsumerAll, ConsumerUpdate, ConsumerDestroy]
    decide
  · intro name events mode h
    simp only [NewConsumer, Consumer.wantUpdate, Consumer.wantDestroy, if_neg h,
      ConsumerUpdate, ConsumerDestroy]
    constructor
    · rw [show (1 : Nat) = 2 ^ 0 from rfl, Nat.and_two_pow]
      cases hb : mode.testBit 0 <;> simp [hb]
    · rw [show (2 : Nat) = 2 ^ 1 from rfl, Nat.and_two_pow]
      cases hb : mode.testBit 1 <;> simp [hb]

/-- Witness for C9 at a concrete nonzero mode (`ConsumerDestroy` = 2):
update bit clear, destroy bit set. -/
theorem C9_consumer_mode_zero_means_all_witness :
    ((NewConsumer "AcctDestroy" 0 2).wantUpdate = true ↔
      Nat.testBit 2 0 = true) ∧
    ((NewConsumer "AcctDestroy" 0 2).wantDestroy = true ↔
      Nat.testBit 2 1 = true) :=
  C9_consumer_mode_zero_means_all.2 "AcctDestroy" 0 2 (by decide)

/-- After `setLast k t` the table reports `t` as the last-delivered
timestamp for `k`. -/
theorem lastOf_setLast (tbl : CooldownTable) (k : FlowKey) (t : Nat) :
    (tbl.setLast k t).lastOf k = some t := by
  simp [CooldownTable.setLast, CooldownTable.lastOf, List.find?_cons_of_pos]

/-- After `remove k` the table has no entry for `k`. -/
theorem lastOf_remove (tbl : CooldownTable) (k : FlowKey) :
    (tbl.remove k).lastOf k = none := by
  simp only [CooldownTable.remove, CooldownTable.lastOf, Option.map_eq_none',
    List.find?_eq_none, List.mem_filter]
  intro x hx
  simpa using hx.2

/-- C4: cooldown filter.  The configured default cooldown is 2000 ms;
an Update with key `K` at time `T` is dropped iff a last-delivered
entry exists and `T − last[K] < cooldown`, a dropped Update leaves the
table unchanged, a delivered Update records `last[K] = T`, and a
Destroy is always delivered and removes `last[K]`. -/
theorem C4_cooldown_filter :
    initAcctCooldownMillis = 2000 ∧
    ∀ (cd : Nat) (tbl : CooldownTable) (k : FlowKey) (t : Nat),
      ((cooldownStep cd tbl k .destroy t).1 = .delivered ∧
        ((cooldownStep cd tbl k .destroy t).2).lastOf k = none) ∧
      ((cooldownStep cd tbl k .update t).1 = .dropped ↔
        ∃ last, tbl.lastOf k = some last ∧ t - last < cd) ∧
      ((cooldownStep cd tbl k .update t).1 = .dropped →
        (cooldownStep cd tbl k .update t).2 = tbl) ∧
      ((cooldownStep cd tbl k .update t).1 = .delivered →
        ((cooldownStep cd tbl k .update t).2).lastOf k = some t) := by
  refine ⟨rfl, ?_⟩
  intro cd tbl k t
  refine ⟨⟨rfl, lastOf_remove tbl k⟩, ?_, ?_, ?_⟩
  · cases h : tbl.lastOf k with
    | none =>
      simp only [cooldownStep, h]
      constructor
      · intro hc
        simp at hc
      · rintro ⟨last, hl, _⟩
        simp [h] at hl
    | some last =>
      by_cases hlt : t - last < cd
      · constructor
        · intro _
          exact ⟨last, rfl, hlt⟩
        · intro _
          simp [cooldownStep, h, hlt]
      · constructor
        · intro hc
          simp [cooldownStep, h, if_neg hlt] at hc
        · rintro ⟨last', hl, hlt'⟩
          injection hl with hl'
          subst hl'
          exact absurd hlt' hlt
  · cases h : tbl.lastOf k with
    | none =>
      intro hc
      simp [cooldownStep, h] at hc
    | some last =>
      by_cases hlt : t - last < cd
      · intro _
        simp [cooldownStep, h, if_pos hlt]
      · intro hc
        simp [cooldownStep, h, if_neg hlt] at hc
  · cases h : tbl.lastOf k with
    | none =>
      intro _
      simp [cooldownStep, h, lastOf_setLast]
    | some last =>
      by_cases hlt : t - last < cd
      · intro hc
        simp [cooldownStep, h, if_pos hlt] at hc
      · intro _
        simp [cooldownStep, h, if_neg hlt, lastOf_setLast]

/-- Witness for C4 at concrete inputs (the spec's scenario S1 key
`{ns = 1, cid = 7}`, cooldown 2000): an update at `t = 500` against a
table entry at 0 leaves the table unchanged, and an update at
`t = 2100` records the new timestamp. -/
theorem C4_cooldown_filter_witness :
    (cooldownStep 2000 [(⟨1, 7⟩, 0)] ⟨1, 7⟩ .update 500).2 = [(⟨1, 7⟩, 0)] ∧
    ((cooldownStep 2000 [(⟨1, 7⟩, 0)] ⟨1, 7⟩ .update 2100).2).lastOf ⟨1, 7⟩ =
      some 2100 :=
  ⟨(C4_cooldown_filter.2 2000 [(⟨1, 7⟩, 0)] ⟨1, 7⟩ 500).2.2.1 (by decide),
   (C4_cooldown_filter.2 2000 [(⟨1, 7⟩, 0)] ⟨1, 7⟩ 2100).2.2.2 (by decide)⟩

/-- Every element of a swap-remove result was in the original list:
the removal retains no reference that was not already registered. -/
theorem mem_swapRemove (cs : List Consumer) (i : Nat) :
    ∀ x ∈ swapRemove cs i, x ∈ cs := by
  intro x hx
  unfold swapRemove at hx
  cases hl : cs.getLast? with
  | none =>
    rw [hl] at hx
    simp at hx
  | some lastC =>
    rw [hl] at hx
    have hx' := List.mem_of_mem_dropLast hx
    rcases List.mem_or_eq_of_mem_set hx' with h | h
    · exact h
    · subst h
      obtain ⟨hne, rfl⟩ := List.mem_getLast?_eq_getLast (l := cs) (by rw [hl]; rfl)
      exact List.getLast_mem hne

/-- Swap-remove on a nonempty list shrinks it by exactly one slot. -/
theorem length_swapRemove (cs : List Consumer) (i : Nat) (h : cs ≠ []) :
    (swapRemove cs i).length = cs.length - 1 := by
  unfold swapRemove
  cases hl : cs.getLast? with
  | none => exact absurd (List.getLast?_eq_none_iff.mp hl) h
  | some lastC => simp

/-- After swap-removing the (unique, by name-nodup) index whose name
is `n`, no element of the result has name `n`, so `GetConsumer`
returns nothing. -/
theorem getConsumer_swapRemove (cs : List Consumer) (n : String) (i : Nat)
    (hnd : (cs.map Consumer.name).Nodup) (hi : i < cs.length)
    (hp : cs[i].name = n) :
    GetConsumer (swapRemove cs i) n = none := by
  have hL : 0 < cs.length := Nat.lt_of_le_of_lt (Nat.zero_le i) hi
  have hlen1 : cs.length - 1 < cs.length := Nat.sub_lt hL Nat.one_pos
  have hlast : cs.getLast? = some cs[cs.length - 1] := by
    rw [List.getLast?_eq_getElem?, List.getElem?_eq_getElem hlen1]
  have hinj : ∀ (a b : Nat) (ha : a < cs.length) (hb : b < cs.length),
      cs[a].name = cs[b].name → a = b := by
    intro a b ha hb hab
    have ha2 : a < (cs.map Consumer.name).length := by simpa using ha
    have hb2 : b < (cs.map Consumer.name).length := by simpa using hb
    have hm : (cs.map Consumer.name)[a] = (cs.map Consumer.name)[b] := by
      rw [List.getElem_map, List.getElem_map]
      exact hab
    exact (@List.Nodup.getElem_inj_iff String (cs.map Consumer.name) hnd
      a ha2 b hb2).mp hm
  simp only [swapRemove, hlast]
  rw [GetConsumer, List.find?_eq_none]
  intro x hx
  rw [List.mem_iff_getElem] at hx
  obtain ⟨j, hj, hxj⟩ := hx
  have hjlen : j < cs.length - 1 := by
    simpa using hj
  have hjset : j < (cs.set i cs[cs.length - 1]).length := by
    simp
    omega
  rw [List.getElem_dropLast] at hxj
  rw [List.getElem_set] at hxj
  simp only [decide_eq_true_eq]
  by_cases hij : i = j
  · rw [if_pos hij] at hxj
    subst hxj
    intro hxn
    have heq := hinj (cs.length - 1) i hlen1 hi (hxn.trans hp.symm)
    omega
  · rw [if_neg hij] at hxj
    subst hxj
    intro hxn
    have heq := hinj j i (by omega) hi (hxn.trans hp.symm)
    exact hij heq.symm

/-- C6: consumer removal round-trip.  When no registered consumer has
`c`'s name, `RemoveConsumer` returns `errNoConsumer` and the registry
is unchanged; after a successful removal (on a registry with distinct
names, as `RegisterConsumer` guarantees) the name can no longer be
looked up, the list is one slot shorter, and the result holds no
reference that was not registered before. -/
theorem C6_remove_consumer_roundtrip :
    ∀ (cs : List Consumer) (c : Consumer),
      ((∀ x ∈ cs, x.name ≠ c.name) →
        RemoveConsumer cs (some c) = (cs, some .errNoConsumer)) ∧
      (∀ cs' : List Consumer, (cs.map Consumer.name).Nodup →
        RemoveConsumer cs (some c) = (cs', none) →
        GetConsumer cs' c.name = none ∧
        cs'.length = cs.length - 1 ∧
        ∀ x ∈ cs', x ∈ cs) := by
  intro cs c
  constructor
  · intro h
    have hfi : cs.findIdx? (fun x => x.name = c.name) = none := by
      rw [List.findIdx?_eq_none_iff]
      intro x hx
      simpa using h x hx
    simp [RemoveConsumer, hfi]
  · intro cs' hnd hok
    simp only [RemoveConsumer] at hok
    cases hfi : cs.findIdx? (fun x => x.name = c.name) with
    | none =>
      rw [hfi] at hok
      simp at hok
    | some i =>
      rw [hfi] at hok
      injection hok with h1 h2
      subst h1
      obtain ⟨hi, hp, -⟩ := List.findIdx?_eq_some_iff_getElem.mp hfi
      have hp' : cs[i].name = c.name := by simpa using hp
      have hne : cs ≠ [] := by
        intro hc
        subst hc
        simp at hi
      exact ⟨getConsumer_swapRemove cs c.name i hnd hi hp',
        length_swapRemove cs i hne, mem_swapRemove cs i⟩

/-- Witness for C6 at a concrete registry: removing a missing name
fails and leaves the registry unchanged; removing a present name (from
a registry with distinct names) empties it for that name. -/
theorem C6_remove_consumer_roundtrip_witness :
    RemoveConsumer [NewConsumer "AcctUpdate" 0 1]
        (some (NewConsumer "AcctDestroy" 1 2)) =
      ([NewConsumer "AcctUpdate" 0 1], some .errNoConsumer) ∧
    GetConsumer [] "AcctUpdate" = none :=
  ⟨(C6_remove_consumer_roundtrip [NewConsumer "AcctUpdate" 0 1]
      (NewConsumer "AcctDestroy" 1 2)).1 (by decide),
   ((C6_remove_consumer_roundtrip [NewConsumer "AcctUpdate" 0 1]
      (NewConsumer "AcctUpdate" 1 1)).2 [] (by decide) (by decide)).1⟩

/-- Closed form of `influxPush`: the appended batch either flushes to
the send channel (when its length has reached the watermark) or stays
current. -/
theorem influxPush_eq (st : InfluxState) (e : Event) :
    influxPush st e =
      if st.batch.length + 1 ≥ st.batchWatermark then
        { st with
          batch := [],
          sent := st.sent ++ [st.batch ++ [{ event := e }]],
          stats := { batchLength := st.batch.length + 1,
                     eventsPushed := st.stats.eventsPushed + 1 } }
      else
        { st with
          batch := st.batch ++ [{ event := e }],
          stats := { batchLength := st.batch.length + 1,
                     eventsPushed := st.stats.eventsPushed + 1 } } := by
  simp only [influxPush, List.length_append, List.length_cons, List.length_nil,
    Nat.zero_add]

/-- C7: batching watermark.  `Init` installs the default watermark 128
when the configured value is 0 and a send channel of capacity 64 with
an empty initial batch.  From any state whose batch is strictly below
the (positive) watermark, `Push` appends exactly one point: when the
new length reaches the watermark the full batch — exactly watermark
many points — is handed to the send channel and an empty batch
installed, otherwise the point stays in the current batch; in both
cases the batch length after `Push` is strictly below the
watermark. -/
theorem C7_batching_watermark :
    (∀ (sc : AcctSinkConfig) (st : InfluxState), influxInit sc = some st →
      st.batchWatermark =
        (if sc.batchWatermark = 0 then 128 else sc.batchWatermark) ∧
      st.sendChanCap = 64 ∧ st.batch = []) ∧
    (∀ (st : InfluxState) (e : Event),
      1 ≤ st.batchWatermark → st.batch.length < st.batchWatermark →
      (influxPush st e).batch.length < st.batchWatermark ∧
      (st.batch.length + 1 = st.batchWatermark →
        (influxPush st e).sent = st.sent ++ [st.batch ++ [{ event := e }]] ∧
        (influxPush st e).batch = []) ∧
      (st.batch.length + 1 ≠ st.batchWatermark →
        (influxPush st e).sent = st.sent ∧
        (influxPush st e).batch = st.batch ++ [{ event := e }])) := by
  constructor
  · intro sc st hok
    simp only [influxInit, defaultBatchWatermark] at hok
    by_cases hn : sc.name = ""
    · rw [if_pos hn] at hok
      exact absurd hok (by simp)
    · rw [if_neg hn] at hok
      injection hok with hok'
      subst hok'
      simp
  · intro st e h1 hlt
    rw [influxPush_eq]
    by_cases heq : st.batch.length + 1 = st.batchWatermark
    · have hcond : st.batch.length + 1 ≥ st.batchWatermark := heq.ge
      rw [if_pos hcond]
      exact ⟨h1, fun _ => ⟨rfl, rfl⟩, fun hne => absurd heq hne⟩
    · have hcond : ¬st.batch.length + 1 ≥ st.batchWatermark := by omega
      rw [if_neg hcond]
      refine ⟨by simp; omega, fun hc => absurd hc heq, fun _ => ⟨rfl, rfl⟩⟩

/-- Witness for C7 at concrete inputs: a zero-watermark config
defaults to 128, and a push against watermark 2 with one point in the
batch flushes exactly the full two-point batch. -/
theorem C7_batching_watermark_witness :
    (∀ st, influxInit { name := "influxdb", batchWatermark := 0 } = some st →
      st.batchWatermark = (if (0 : Nat) = 0 then 128 else 0) ∧
      st.sendChanCap = 64 ∧ st.batch = []) ∧
    (influxPush
        { batchWatermark := 2, sendChanCap := 64,
          batch := [{ event := { timestamp := 0, connectionID := 7,
                                 netNS := 1, kind := .update } }],
          sent := [],
          stats := { batchLength := 1, eventsPushed := 1 },
          isInit := true }
        { timestamp := 5, connectionID := 7, netNS := 1,
          kind := .destroy }).batch.length < 2 :=
  ⟨fun st h => C7_batching_watermark.1
      { name := "influxdb", batchWatermark := 0 } st h,
   (C7_batching_watermark.2
      { batchWatermark := 2, sendChanCap := 64,
        batch := [{ event := { timestamp := 0, connectionID := 7,
                               netNS := 1, kind := .update } }],
        sent := [],
        stats := { batchLength := 1, eventsPushed := 1 },
        isInit := true }
      { timestamp := 5, connectionID := 7, netNS := 1,
        kind := .destroy } (by decide) (by decide)).1⟩

/-- C10: a failed first `Start` consumes the one-shot gate.  On an
initialized pipeline whose probe's start fails, the first `Start`
returns the wrapped probe error and leaves the gate consumed; any
later `Start` on a gate-consumed pipeline with a non-nil probe returns
nil and changes nothing — in particular it spawns no workers and never
reaches the probe's `Start` again. -/
theorem C10_failed_start_consumes_gate :
    ∀ (p : PipelineState) (pr : Probe) (e : BpfError),
      p.acctProbe = some pr → p.startDone = false → pr.startResult = some e →
      (pipelineStart p).2 = some (.wrapProbeStart e) ∧
      (pipelineStart p).1.startDone = true ∧
      (pipelineStart p).1.acctProbe = some pr ∧
      (∀ q : PipelineState, q.acctProbe = some pr → q.startDone = true →
        pipelineStart q = (q, none)) := by
  intro p pr e hp hs he
  refine ⟨?_, ?_, ?_, ?_⟩
  · simp [pipelineStart, startAcct, hp, hs, he]
  · simp [pipelineStart, startAcct, hp, hs, he]
  · simp [pipelineStart, startAcct, hp, hs, he]
  · intro q hq hqs
    simp [pipelineStart, hq, hqs]

/-- A concrete pipeline for the C10 witness: initialized, gate unused,
probe whose kernel start would fail. -/
def failedStartPipeline : PipelineState :=
  { acctProbe := some { consumers := [], running := false,
                        startResult := some .errProbeStarted },
    initDone := true, startDone := false,
    workersSpawned := 0, probeStartAttempts := 0 }

/-- Witness for C10 at the concrete pipeline: the first `Start`
returns the wrapped error, and the second call returns nil leaving the
state exactly as the failed first call left it. -/
theorem C10_failed_start_consumes_gate_witness :
    (pipelineStart failedStartPipeline).2 =
      some (.wrapProbeStart .errProbeStarted) ∧
    pipelineStart (pipelineStart failedStartPipeline).1 =
      ((pipelineStart failedStartPipeline).1, none) :=
  ⟨(C10_failed_start_consumes_gate failedStartPipeline
      { consumers := [], running := false,
        startResult := some .errProbeStarted }
      .errProbeStarted rfl rfl rfl).1,
   (C10_failed_start_consumes_gate failedStartPipeline
      { consumers := [], running := false,
        startResult := some .errProbeStarted }
      .errProbeStarted rfl rfl rfl).2.2.2
     (pipelineStart failedStartPipeline).1
     (C10_failed_start_consumes_gate failedStartPipeline
        { consumers := [], running := false,
          startResult := some .errProbeStarted }
        .errProbeStarted rfl rfl rfl).2.2.1
     (C10_failed_start_consumes_gate failedStartPipeline
        { consumers := [], running := false,
          startResult := some .errProbeStarted }
        .errProbeStarted rfl rfl rfl).2.1⟩

end Conntracct
